import Mathlib

/-!
Verification of the `death` Go package (src/death.go): a shutdown coordinator
consisting of a trigger unit (a signal channel and a manual-trigger channel
drained by a background goroutine guarded by a WaitGroup) and a mass-release
coordinator (`closeInMass`) that spawns one `closeObjects` goroutine per
resource, fans completions into a buffered channel, and races them against a
single timer.

Shallow embedding conventions:
* Goroutine scheduling is abstracted into an explicit list of `Event`s
  (completions received on the fan-in channel, and the timer firing) consumed
  by the select loop of `closeInMass`.
* The Go map `sentToClose` is an association list from ordinal index to
  `closer`; Go's unspecified map iteration order is fixed to list order (the
  properties proved about the timeout log output are insensitive to order in
  the sense that the logged set is exactly the remaining set).
* Log calls and goroutine spawns are recorded in an `Action` trace.
* A Go panic is modelled as the absence of a result (`Option.none`).
* Go `int` is modelled as `Int`; `count--` is integer decrement.
-/

namespace death

/-- Go reflect types, to the extent `getPkgPath` inspects them: a defined
(named) non-pointer type carrying `Name()` and `PkgPath()`, a pointer type
(itself unnamed), or any other unnamed non-pointer type, whose `Name()` and
`PkgPath()` are both empty. -/
inductive GoType where
  | named (name pkgPath : String)
  | ptrTo (t : GoType)
  | unnamedNonPtr
  deriving DecidableEq

/-- Name() of a reflect type: empty for pointer types and other unnamed types. -/
def typeName : GoType → String
  | GoType.named n _ => n
  | _ => ""

/-- PkgPath() of a reflect type: empty for pointer types and other unnamed types. -/
def typePkgPath : GoType → String
  | GoType.named _ p => p
  | _ => ""

/-- Kind() == reflect.Ptr test. -/
def typeIsPtr : GoType → Bool
  | GoType.ptrTo _ => true
  | _ => false

/-- Elem() of a reflect type; `closeInMass` only applies it to pointer types. -/
def typeElem : GoType → GoType
  | GoType.ptrTo e => e
  | t => t

/-- A value of the `io.Closer` interface type. `typ = none` models the nil
interface value (for which `reflect.TypeOf` returns a nil `reflect.Type`);
`closeErr` is the error value the resource's `Close()` call returns
(`none` = nil error). -/
structure GoCloser where
  typ : Option GoType
  closeErr : Option String
  deriving DecidableEq

/-- Model of `getPkgPath` (death.go lines 90-96):
`t := reflect.TypeOf(c); if t.Kind() == reflect.Ptr { t = t.Elem() };
return t.Name(), t.PkgPath()`.
A `none` result models the panic that occurs for the nil interface value:
`reflect.TypeOf` returns a nil `reflect.Type` and the `Kind()` call
dereferences nil. -/
def getPkgPath (c : GoCloser) : Option (String × String) :=
  match c.typ with
  | none => none
  | some t0 =>
      let t := if typeIsPtr t0 then typeElem t0 else t0
      some (typeName t, typePkgPath t)

/-- The `closer` wrapper struct (death.go lines 36-41): ordinal index, the
wrapped resource, and the diagnostic name and package path. -/
structure closer where
  Index : Nat
  C : GoCloser
  Name : String
  PKGPath : String
  deriving DecidableEq

/-- Observable actions of the coordinator: the four severity-leveled log calls,
spawning one `closeObjects` goroutine for an ordinal index, and starting the
global timer. -/
inductive Action where
  | logError (s : String)
  | logDebug (s : String)
  | logInfo (s : String)
  | logWarn (s : String)
  | spawnCloseTask (i : Nat)
  | startTimer
  deriving DecidableEq

/-- The two events the select loop of `closeInMass` can observe: the timer
firing, or a completion received on the fan-in channel `doneClosers`. -/
inductive Event where
  | timerFired
  | completion (c : closer)
  deriving DecidableEq

/-- The setup loop of `closeInMass` (death.go lines 106-111): wrap each
resource, starting at ordinal index `i`, into a `closer`. A `none` result
propagates the panic of `getPkgPath` on a nil interface value. -/
def mkClosers : Nat → List GoCloser → Option (List closer)
  | _, [] => some []
  | i, c :: rest =>
      match getPkgPath c, mkClosers (i + 1) rest with
      | some (n, p), some cs =>
          some ({ Index := i, C := c, Name := n, PKGPath := p } :: cs)
      | _, _ => none

/-- Key list of the `sentToClose` association list. -/
def keys (m : List (Nat × closer)) : List Nat :=
  m.map Prod.fst

/-- Go's `delete(sentToClose, k)` on the association list. -/
def mapDelete (m : List (Nat × closer)) (k : Nat) : List (Nat × closer) :=
  m.filter fun p => p.1 != k

/-- Fold of `mapDelete` over a list of received completions. -/
def deleteAll (m : List (Nat × closer)) (comps : List closer) : List (Nat × closer) :=
  comps.foldl (fun acc c => mapDelete acc c.Index) m

/-- Initial population of `sentToClose`: one entry per spawned task, keyed by
its ordinal index (death.go line 110). -/
def sentToCloseInit (tasks : List closer) : List (Nat × closer) :=
  tasks.map fun c => (c.Index, c)

/-- The debug lines logged by the completion branch while `count` is counted
down through one completion per list element (death.go line 126). -/
def debugCountdown : Int → List closer → List Action
  | _, [] => []
  | count, _ :: cs =>
      Action.logDebug (toString (count - 1) ++ " object(s) left") ::
        debugCountdown (count - 1) cs

/-- The select loop of `closeInMass` (death.go lines 115-132) over an explicit
event list. Result: the trace of actions, and `none` while the loop is still
blocked, `some none` for a nil return, `some (some e)` for an error return. -/
def massLoop : List (Nat × closer) → Int → List Event → List Action × Option (Option String)
  | _, _, [] => ([], none)
  | sentToClose, count, Event.timerFired :: _ =>
      (Action.logWarn (toString count ++ " object(s) remaining but timer expired.") ::
         sentToClose.map
           (fun p => Action.logError ("Failed to close: " ++ p.2.PKGPath ++ "/" ++ p.2.Name)),
       some (some "failed to close all objects"))
  | sentToClose, count, Event.completion c :: rest =>
      let sent' := mapDelete sentToClose c.Index
      let count' := count - 1
      let dbg := Action.logDebug (toString count' ++ " object(s) left")
      if count' = 0 ∧ sent' = [] then
        ([dbg, Action.logDebug "Finished closing objects"], some none)
      else
        (dbg :: (massLoop sent' count' rest).1, (massLoop sent' count' rest).2)

/-- Model of `closeInMass` (death.go lines 100-133): wrap every resource,
spawn one close goroutine per resource, start the timer, then run the select
loop. `none` models the setup panic on a nil interface value. -/
def closeInMass (closable : List GoCloser) (events : List Event) :
    Option (List Action × Option (Option String)) :=
  match mkClosers 0 closable with
  | none => none
  | some tasks =>
      let r := massLoop (sentToCloseInit tasks) (closable.length : Int) events
      some (tasks.map (fun c => Action.spawnCloseTask c.Index) ++ Action.startTimer :: r.1, r.2)

/-- Model of `WaitForDeath` after the trigger has fired (death.go lines 70-79):
log, then either delegate to `closeInMass` (when there is at least one
closable) or return nil outright. -/
def WaitForDeath (closable : List GoCloser) (events : List Event) :
    Option (List Action × Option (Option String)) :=
  let pre := [Action.logInfo "Shutdown started...",
              Action.logDebug ("Closing " ++ toString closable.length ++ " objects")]
  if 0 < closable.length then
    match closeInMass closable events with
    | none => none
    | some r => some (pre ++ r.1, r.2)
  else
    some (pre, some none)

/-- Model of the `closeObjects` goroutine body (death.go lines 136-142):
call `Close()`, log a non-nil error, and send exactly one completion on the
`done` channel. Result: the logged actions and the list of messages sent. -/
def closeObjects (c : closer) : List Action × List closer :=
  (match c.C.closeErr with
   | some e => [Action.logError e]
   | none => [],
   [c])

/-- Capacity of the fan-in channel `doneClosers` (death.go line 105):
`make(chan closer, count)`. -/
def doneCap (closable : List GoCloser) : Nat :=
  closable.length

/-- Number of sends in a channel trace (`true` = a goroutine's send on
`doneClosers`, `false` = the coordinator's receive). -/
def sends (t : List Bool) : Nat :=
  t.count true

/-- Number of receives in a channel trace. -/
def recvs (t : List Bool) : Nat :=
  t.count false

/-- Buffer occupancy of the fan-in channel after a trace. -/
def chanBuf (t : List Bool) : Int :=
  (sends t : Int) - (recvs t : Int)

/-- Capacity of the manual-trigger channel `callChannel` (death.go line 47):
`make(chan struct\x7b\x7d, 1)`. -/
def callChanCap : Nat := 1

/-- A buffered-channel send: `some` of the new buffer size when there is room,
`none` when the send would block. -/
def chanSend (cap buf : Nat) : Option Nat :=
  if buf < cap then some (buf + 1) else none

/-- State of one `Death` value for the trigger unit: pending signals in
`sigChannel` (capacity 1), pending manual triggers in `callChannel`
(capacity 1), and whether `listenForSignal` has returned (performing its
deferred `wg.Done()`). -/
structure DeathState where
  sigBuf : Nat
  callBuf : Nat
  listenerDone : Bool
  deriving DecidableEq

/-- Model of `FallOnSword` (death.go lines 145-150): a select with a send on
`callChannel` and a `default` branch, i.e. a non-blocking send that is a
no-op when the buffer is full. -/
def FallOnSword (s : DeathState) : DeathState :=
  match chanSend callChanCap s.callBuf with
  | some b => { s with callBuf := b }
  | none => s

/-- State of a freshly constructed `Death` (death.go lines 44-54): empty
channels, listener goroutine running, `wg` counter at 1. -/
def NewDeathState : DeathState :=
  { sigBuf := 0, callBuf := 0, listenerDone := false }

/-- The WaitGroup counter: `wg.Add(1)` at construction, `wg.Done()` when the
listener returns. `WaitForDeath`'s `d.wg.Wait()` unblocks iff this is 0. -/
def wgCount (s : DeathState) : Nat :=
  if s.listenerDone then 0 else 1

/-- Interleaving steps of the trigger unit: a signal delivery (`signal.Notify`
performs a non-blocking send, dropping when the buffer is full), a
`FallOnSword` call, and the `listenForSignal` goroutine (death.go lines
153-163) consuming either a pending signal or a pending manual trigger and
returning, which runs its deferred `wg.Done()`. -/
inductive DStep : DeathState → DeathState → Prop
  | signalArrive (s : DeathState) (h : s.sigBuf < 1) :
      DStep s { s with sigBuf := s.sigBuf + 1 }
  | signalDrop (s : DeathState) (h : ¬ s.sigBuf < 1) : DStep s s
  | sword (s : DeathState) : DStep s (FallOnSword s)
  | listenSig (s : DeathState) (h : s.listenerDone = false) (h2 : 0 < s.sigBuf) :
      DStep s { s with sigBuf := s.sigBuf - 1, listenerDone := true }
  | listenCall (s : DeathState) (h : s.listenerDone = false) (h2 : 0 < s.callBuf) :
      DStep s { s with callBuf := s.callBuf - 1, listenerDone := true }

/-- A sample non-nil resource: a value of a named struct type `A` from
package `pa`, whose Close() returns nil. -/
def ra : GoCloser := { typ := some (GoType.named "A" "pa"), closeErr := none }

/-- A second sample non-nil resource of a different named type. -/
def rb : GoCloser := { typ := some (GoType.named "B" "pb"), closeErr := none }

/-- The nil `io.Closer` interface value. -/
def nilCloser : GoCloser := { typ := none, closeErr := none }

/-- The closer wrapper built for `ra` at index 0. -/
def wt0 : closer := { Index := 0, C := ra, Name := "A", PKGPath := "pa" }

/-- The closer wrapper built for `rb` at index 1. -/
def wt1 : closer := { Index := 1, C := rb, Name := "B", PKGPath := "pb" }

/-- The closer wrapper built for a second occurrence of `ra` at index 1. -/
def wt2 : closer := { Index := 1, C := ra, Name := "A", PKGPath := "pa" }

/-- A resource whose Close() reports an internal error. -/
def rc : GoCloser := { typ := some (GoType.named "A" "pa"), closeErr := some "boom" }

/-- The closer wrapper built for `rc` at index 0. -/
def wtc : closer := { Index := 0, C := rc, Name := "A", PKGPath := "pa" }

/-! Helper lemmas about the pending map. -/

theorem keys_mapDelete (m : List (Nat × closer)) (k : Nat) :
    keys (mapDelete m k) = (keys m).filter (fun j => j != k) := by
  induction m with
  | nil => rfl
  | cons p t ih =>
      simp only [mapDelete, keys, List.filter_cons, List.map_cons]
      cases h : (p.1 != k) with
      | false => simpa [mapDelete, keys, h] using ih
      | true => simpa [mapDelete, keys, h] using ih

theorem mem_keys_mapDelete {m : List (Nat × closer)} {k j : Nat} :
    j ∈ keys (mapDelete m k) ↔ j ∈ keys m ∧ j ≠ k := by
  simp [keys_mapDelete, List.mem_filter]

theorem nodup_keys_mapDelete {m : List (Nat × closer)} (k : Nat)
    (h : (keys m).Nodup) : (keys (mapDelete m k)).Nodup := by
  rw [keys_mapDelete]
  exact h.filter _

theorem length_mapDelete {m : List (Nat × closer)} {k : Nat}
    (hnd : (keys m).Nodup) (hk : k ∈ keys m) :
    (mapDelete m k).length + 1 = m.length := by
  induction m with
  | nil => simp [keys] at hk
  | cons p t ih =>
      have hnd2 := List.nodup_cons.mp (show (p.1 :: keys t).Nodup from hnd)
      have hnd' : (keys t).Nodup := hnd2.2
      have hnp : p.1 ∉ keys t := hnd2.1
      by_cases hpk : p.1 = k
      · have hfilter : mapDelete t k = t := by
          apply List.filter_eq_self.mpr
          intro q hq
          have hqmem : q.1 ∈ keys t := List.mem_map_of_mem Prod.fst hq
          have hqk : q.1 ≠ k := fun he => hnp (by rw [hpk, ← he]; exact hqmem)
          simpa using hqk
        have hfalse : (p.1 != k) = false := by simp [hpk]
        simp only [mapDelete, List.filter_cons, hfalse] at hfilter ⊢
        simp only [Bool.false_eq_true, if_false, List.length_cons]
        rw [hfilter]
      · have hk' : k ∈ keys t := by
          rcases List.mem_cons.mp (show k ∈ p.1 :: keys t from hk) with h | h
          · exact absurd h.symm hpk
          · exact h
        have htrue : (p.1 != k) = true := by simpa using hpk
        have hrec := ih hnd' hk'
        simp only [mapDelete, List.filter_cons, htrue, if_true, List.length_cons] at hrec ⊢
        omega

theorem mapDelete_sublist (m : List (Nat × closer)) (k : Nat) :
    List.Sublist (mapDelete m k) m :=
  List.filter_sublist m

theorem deleteAll_cons (m : List (Nat × closer)) (c : closer) (cs : List closer) :
    deleteAll m (c :: cs) = deleteAll (mapDelete m c.Index) cs := rfl

theorem deleteAll_nil_left : ∀ cs : List closer, deleteAll [] cs = []
  | [] => rfl
  | _ :: cs => deleteAll_nil_left cs

theorem deleteAll_sublist : ∀ (cs : List closer) (m : List (Nat × closer)),
    List.Sublist (deleteAll m cs) m
  | [], _ => List.Sublist.refl _
  | c :: cs, m =>
      ((deleteAll_sublist cs (mapDelete m c.Index)).trans (mapDelete_sublist m c.Index))

theorem deleteAll_length : ∀ (cs : List closer) (m : List (Nat × closer)),
    (keys m).Nodup → (cs.map closer.Index).Nodup →
    (∀ c ∈ cs, c.Index ∈ keys m) →
    ((deleteAll m cs).length : Int) = (m.length : Int) - cs.length
  | [], m, _, _, _ => by simp [deleteAll]
  | c :: cs, m, hnd, hcnd, hmem => by
      rw [deleteAll_cons]
      have hk : c.Index ∈ keys m := hmem c (List.mem_cons_self _ _)
      have hlen := length_mapDelete hnd hk
      simp only [List.map_cons, List.nodup_cons] at hcnd
      have hrec := deleteAll_length cs (mapDelete m c.Index)
        (nodup_keys_mapDelete _ hnd) hcnd.2
        (fun c' hc' => mem_keys_mapDelete.mpr
          ⟨hmem c' (List.mem_cons_of_mem _ hc'),
           fun he => hcnd.1 (he ▸ List.mem_map_of_mem closer.Index hc')⟩)
      simp only [List.length_cons]
      omega

/-- A Nodup list is a permutation of any of its elements consed onto the list
with that element filtered out. -/
theorem perm_cons_filter_of_nodup :
    ∀ (l : List Nat), l.Nodup → ∀ a ∈ l, List.Perm l (a :: l.filter (fun j => j != a))
  | [], _, a, ha => absurd ha (List.not_mem_nil a)
  | b :: t, hnd, a, ha => by
      simp only [List.nodup_cons] at hnd
      rcases List.mem_cons.mp ha with hab | hat
      · subst hab
        have hself : t.filter (fun j => j != a) = t := by
          apply List.filter_eq_self.mpr
          intro x hx
          have hxa : x ≠ a := fun he => hnd.1 (he ▸ hx)
          simpa using hxa
        simp [List.filter_cons, hself]
      · have hbat : b ≠ a := fun he => hnd.1 (he ▸ hat)
        have hba : (b != a) = true := by simpa using hbat
        have ih := perm_cons_filter_of_nodup t hnd.2 a hat
        have h1 : List.Perm (b :: t) (b :: a :: t.filter (fun j => j != a)) := ih.cons b
        have h2 : List.Perm (b :: a :: t.filter (fun j => j != a))
            (a :: b :: t.filter (fun j => j != a)) := List.Perm.swap a b _
        have h3 : (b :: t).filter (fun j => j != a) = b :: t.filter (fun j => j != a) := by
          simp [List.filter_cons, hba]
        rw [h3]
        exact h1.trans h2

/-! Unfolding equations and trace lemmas for the select loop. -/

theorem massLoop_timer (sent : List (Nat × closer)) (count : Int) (rest : List Event) :
    massLoop sent count (Event.timerFired :: rest) =
      (Action.logWarn (toString count ++ " object(s) remaining but timer expired.") ::
         sent.map
           (fun p => Action.logError ("Failed to close: " ++ p.2.PKGPath ++ "/" ++ p.2.Name)),
       some (some "failed to close all objects")) := rfl

theorem massLoop_completion (sent : List (Nat × closer)) (count : Int) (c : closer)
    (rest : List Event) :
    massLoop sent count (Event.completion c :: rest) =
      if count - 1 = 0 ∧ mapDelete sent c.Index = [] then
        ([Action.logDebug (toString (count - 1) ++ " object(s) left"),
          Action.logDebug "Finished closing objects"], some none)
      else
        (Action.logDebug (toString (count - 1) ++ " object(s) left") ::
           (massLoop (mapDelete sent c.Index) (count - 1) rest).1,
         (massLoop (mapDelete sent c.Index) (count - 1) rest).2) := rfl

/-- Processing a run of completions that leaves the pending map non-empty:
each one deletes its index, decrements the count, and logs the countdown,
and the loop then continues on the rest of the events from the shrunken
state. -/
theorem massLoop_consume :
    ∀ (comps : List closer) (sent : List (Nat × closer)) (count : Int) (rest : List Event),
      deleteAll sent comps ≠ [] →
      massLoop sent count (comps.map Event.completion ++ rest) =
        (debugCountdown count comps ++
           (massLoop (deleteAll sent comps) (count - comps.length) rest).1,
         (massLoop (deleteAll sent comps) (count - comps.length) rest).2)
  | [], sent, count, rest, _ => by
      simp [debugCountdown, deleteAll]
  | c :: cs, sent, count, rest, h => by
      rw [List.map_cons, List.cons_append, massLoop_completion]
      rw [deleteAll_cons] at h
      have hne : mapDelete sent c.Index ≠ [] := by
        intro h0
        exact h (by rw [h0, deleteAll_nil_left])
      rw [if_neg (fun hc => hne hc.2)]
      have ih := massLoop_consume cs (mapDelete sent c.Index) (count - 1) rest h
      rw [ih]
      have harith : count - 1 - (cs.length : Int) = count - ((c :: cs).length : Int) := by
        simp only [List.length_cons]
        push_cast
        ring
      rw [deleteAll_cons, harith]
      simp [debugCountdown]

/-- Processing a run of completions that covers the whole pending map (in any
order): the loop returns nil immediately after the last one, ignoring all
later events. -/
theorem massLoop_success :
    ∀ (comps : List closer) (sent : List (Nat × closer)) (count : Int) (rest : List Event),
      sent ≠ [] → (keys sent).Nodup → count = sent.length →
      List.Perm (comps.map closer.Index) (keys sent) →
      massLoop sent count (comps.map Event.completion ++ rest) =
        (debugCountdown count comps ++ [Action.logDebug "Finished closing objects"], some none)
  | [], sent, count, rest, hne, _, _, hperm => by
      have : keys sent = [] := (hperm.symm.eq_nil)
      have : sent = [] := by
        have := congrArg List.length this
        simpa [keys] using List.length_eq_zero.mp (by simpa [keys] using this)
      exact absurd this hne
  | c :: cs, sent, count, rest, hne, hnd, hcount, hperm => by
      rw [List.map_cons] at hperm
      have hmem : c.Index ∈ keys sent := hperm.subset (List.mem_cons_self _ _)
      have hlen := length_mapDelete hnd hmem
      have hperm' : List.Perm (cs.map closer.Index) (keys (mapDelete sent c.Index)) := by
        rw [keys_mapDelete]
        exact (hperm.trans (perm_cons_filter_of_nodup _ hnd _ hmem)).cons_inv
      rw [List.map_cons, List.cons_append, massLoop_completion]
      by_cases hs : mapDelete sent c.Index = []
      · have hcs : cs = [] := by
          rw [hs] at hperm'
          have : cs.map closer.Index = [] := hperm'.eq_nil
          exact List.map_eq_nil_iff.mp this
        have hone : sent.length = 1 := by
          rw [hs] at hlen
          simpa using hlen.symm
        have hcz : count - 1 = 0 := by
          rw [hcount, hone]
          rfl
        rw [if_pos ⟨hcz, hs⟩]
        subst hcs
        simp [debugCountdown, hcz]
      · have hlen' : (mapDelete sent c.Index).length ≠ 0 :=
          fun h0 => hs (List.length_eq_zero.mp h0)
        have hcz : ¬ (count - 1 = 0 ∧ mapDelete sent c.Index = []) := fun hc => hs hc.2
        rw [if_neg hcz]
        have hcount' : count - 1 = ((mapDelete sent c.Index).length : Int) := by
          rw [hcount]
          omega
        have ih := massLoop_success cs (mapDelete sent c.Index) (count - 1) rest hs
          (nodup_keys_mapDelete _ hnd) hcount' hperm'
        rw [ih]
        simp [debugCountdown]

/-- The loop returns a non-nil error only if the timer fired. -/
theorem massLoop_error_mem :
    ∀ (evs : List Event) (sent : List (Nat × closer)) (count : Int) (e : String),
      (massLoop sent count evs).2 = some (some e) → Event.timerFired ∈ evs
  | [], _, _, _, h => by simp [massLoop] at h
  | Event.timerFired :: rest, _, _, _, _ => List.mem_cons_self _ _
  | Event.completion c :: rest, sent, count, e, h => by
      rw [massLoop_completion] at h
      by_cases hc : count - 1 = 0 ∧ mapDelete sent c.Index = []
      · rw [if_pos hc] at h
        simp at h
      · rw [if_neg hc] at h
        exact List.mem_cons_of_mem _
          (massLoop_error_mem rest (mapDelete sent c.Index) (count - 1) e h)

/-! Lemmas about the setup phase. -/

theorem mkClosers_indices :
    ∀ (l : List GoCloser) (i : Nat) (ts : List closer),
      mkClosers i l = some ts → ts.map closer.Index = List.range' i l.length
  | [], i, ts, h => by
      simp [mkClosers] at h
      simp [← h]
  | c :: rest, i, ts, h => by
      simp only [mkClosers] at h
      cases hg : getPkgPath c with
      | none => rw [hg] at h; exact absurd h (by simp)
      | some np =>
          cases hr : mkClosers (i + 1) rest with
          | none => rw [hg, hr] at h; exact absurd h (by simp)
          | some cs =>
              rw [hg, hr] at h
              obtain ⟨n, p⟩ := np
              simp only [Option.some.injEq] at h
              have ih := mkClosers_indices rest (i + 1) cs hr
              rw [← h]
              simpa [List.range'] using ih

theorem mkClosers_resources :
    ∀ (l : List GoCloser) (i : Nat) (ts : List closer),
      mkClosers i l = some ts → ts.map closer.C = l
  | [], i, ts, h => by
      simp [mkClosers] at h
      simp [← h]
  | c :: rest, i, ts, h => by
      simp only [mkClosers] at h
      cases hg : getPkgPath c with
      | none => rw [hg] at h; exact absurd h (by simp)
      | some np =>
          cases hr : mkClosers (i + 1) rest with
          | none => rw [hg, hr] at h; exact absurd h (by simp)
          | some cs =>
              rw [hg, hr] at h
              obtain ⟨n, p⟩ := np
              simp only [Option.some.injEq] at h
              have ih := mkClosers_resources rest (i + 1) cs hr
              rw [← h]
              simpa using ih

theorem mkClosers_length {l : List GoCloser} {i : Nat} {ts : List closer}
    (h : mkClosers i l = some ts) : ts.length = l.length := by
  have := congrArg List.length (mkClosers_indices l i ts h)
  simpa using this

theorem keys_sentToCloseInit (tasks : List closer) :
    keys (sentToCloseInit tasks) = tasks.map closer.Index := by
  simp [keys, sentToCloseInit, List.map_map]

theorem length_sentToCloseInit (tasks : List closer) :
    (sentToCloseInit tasks).length = tasks.length := by
  simp [sentToCloseInit]

/-! Helper lemmas about the trigger unit. -/

theorem FallOnSword_listenerDone (s : DeathState) :
    (FallOnSword s).listenerDone = s.listenerDone := by
  unfold FallOnSword
  cases h : chanSend callChanCap s.callBuf <;> simp

theorem FallOnSword_sigBuf (s : DeathState) :
    (FallOnSword s).sigBuf = s.sigBuf := by
  unfold FallOnSword
  cases h : chanSend callChanCap s.callBuf <;> simp

theorem dstep_done_mono {s t : DeathState} (h : DStep s t)
    (hd : s.listenerDone = true) : t.listenerDone = true := by
  cases h with
  | signalArrive h => exact hd
  | signalDrop h => exact hd
  | sword => rw [FallOnSword_listenerDone]; exact hd
  | listenSig h h2 => rfl
  | listenCall h h2 => rfl

theorem dsteps_done_mono {s t : DeathState} (h : Relation.ReflTransGen DStep s t)
    (hd : s.listenerDone = true) : t.listenerDone = true := by
  induction h with
  | refl => exact hd
  | tail _ step ih => exact dstep_done_mono step ih

/-! Claim theorems. -/

/-- Claim C4: for an empty resource list, `WaitForDeath` (after the trigger
fires) returns nil without invoking the mass-release coordinator at all: the
trace holds only the two log lines, so no close goroutine is spawned and the
timer wait path is never entered. -/
theorem C4_empty_trivial_success : ∀ events : List Event,
    WaitForDeath [] events =
      some ([Action.logInfo "Shutdown started...", Action.logDebug "Closing 0 objects"],
            some none) ∧
    ∀ (acts : List Action) (res : Option (Option String)),
      WaitForDeath [] events = some (acts, res) →
      res = some none ∧ Action.startTimer ∉ acts ∧
        ∀ i : Nat, Action.spawnCloseTask i ∉ acts := by
  intro events
  have h0 : WaitForDeath ([] : List GoCloser) events =
      some ([Action.logInfo "Shutdown started...", Action.logDebug "Closing 0 objects"],
            some none) := rfl
  refine ⟨h0, ?_⟩
  intro acts res h
  rw [h0] at h
  have h' := Option.some.inj h
  have hacts : acts = [Action.logInfo "Shutdown started...",
      Action.logDebug "Closing 0 objects"] := (congrArg Prod.fst h').symm
  have hres : res = some none := (congrArg Prod.snd h').symm
  subst hacts
  subst hres
  refine ⟨rfl, by simp, fun i => by simp⟩

/-- Witness for C4: with no events pending, the startTimer action is absent
from the empty-batch trace. -/
theorem C4_empty_trivial_success_witness :
    Action.startTimer ∉ [Action.logInfo "Shutdown started...",
      Action.logDebug "Closing 0 objects"] :=
  ((C4_empty_trivial_success []).2 _ _ (C4_empty_trivial_success []).1).2.1

/-- Claim C5: `FallOnSword` never blocks its caller and never panics in any
state: it is modelled as a total function (the Go select has a `default`
branch), it is a pure no-op exactly when a blocking send on the capacity-one
`callChannel` would block, a second call in succession changes nothing, and it
leaves the rest of the state untouched. -/
theorem C5_fallOnSword_nonblocking : ∀ s : DeathState, s.callBuf ≤ callChanCap →
    (chanSend callChanCap s.callBuf = none → FallOnSword s = s) ∧
    FallOnSword (FallOnSword s) = FallOnSword s ∧
    (FallOnSword s).callBuf ≤ callChanCap ∧
    (FallOnSword s).sigBuf = s.sigBuf ∧
    (FallOnSword s).listenerDone = s.listenerDone := by
  intro s hs
  obtain ⟨sig, cb, d⟩ := s
  have hcb : cb ≤ 1 := hs
  interval_cases cb <;> simp [FallOnSword, chanSend, callChanCap]

/-- Witness for C5: two successive calls from the freshly constructed state
collapse to one. -/
theorem C5_fallOnSword_nonblocking_witness :
    FallOnSword (FallOnSword NewDeathState) = FallOnSword NewDeathState :=
  (C5_fallOnSword_nonblocking NewDeathState (by decide)).2.1

/-- Claim C6: the trigger unit is a one-shot terminal state machine: the fresh
state is Armed (`listenerDone = false`); the Armed→Triggered transition
happens only on arrival of a pending signal or manual trigger; Triggered is
terminal under every step and every multi-step run; and the WaitGroup that
blocks `WaitForDeath`/`WaitForDeathWithFunc` is at zero exactly in the
Triggered state, so a wait unblocks exactly at the first trigger and any later
wait returns immediately. -/
theorem C6_trigger_one_shot :
    NewDeathState.listenerDone = false ∧
    (∀ s t : DeathState, DStep s t → s.listenerDone = false → t.listenerDone = true →
        0 < s.sigBuf ∨ 0 < s.callBuf) ∧
    (∀ s t : DeathState, DStep s t → s.listenerDone = true → t.listenerDone = true) ∧
    (∀ s t : DeathState, Relation.ReflTransGen DStep s t → s.listenerDone = true →
        t.listenerDone = true) ∧
    (∀ s : DeathState, wgCount s = 0 ↔ s.listenerDone = true) := by
  refine ⟨rfl, ?_, fun s t h hd => dstep_done_mono h hd,
    fun s t h hd => dsteps_done_mono h hd, ?_⟩
  · intro s t h hs ht
    cases h with
    | signalArrive h =>
        exact absurd (show s.listenerDone = true from ht) (by simp [hs])
    | signalDrop h =>
        exact absurd ht (by simp [hs])
    | sword =>
        rw [FallOnSword_listenerDone] at ht
        exact absurd ht (by simp [hs])
    | listenSig h h2 => exact Or.inl h2
    | listenCall h h2 => exact Or.inr h2
  · intro s
    cases hd : s.listenerDone <;> simp [wgCount, hd]

/-- Witness for C6: the Triggered state stays Triggered along the empty run. -/
theorem C6_trigger_one_shot_witness :
    ({ sigBuf := 0, callBuf := 0, listenerDone := true } : DeathState).listenerDone = true :=
  C6_trigger_one_shot.2.2.2.1 _ _ Relation.ReflTransGen.refl rfl

/-- Claim C8 counterexample: for the nil interface value, `reflect.TypeOf`
returns a nil `reflect.Type` and the `t.Kind()` call panics (modelled as
`none`), so name/origin derivation is not panic-free on every input value of
the closeable interface type. -/
theorem C8_nil_counterexample :
    getPkgPath nilCloser = none ∧
    ¬ ∀ c : GoCloser, (getPkgPath c).isSome = true := by
  constructor
  · rfl
  · intro h
    have hnil := h nilCloser
    simp [getPkgPath, nilCloser] at hnil

/-- Claim C8 (amended): for every non-nil value of the closeable interface
type, deriving the diagnostic name and origin never panics; a pointer type is
dereferenced once before reading the name, and an unnamed type degrades to
empty strings rather than aborting. -/
theorem C8_introspection_best_effort :
    (∀ (t : GoType) (e : Option String),
        (getPkgPath { typ := some t, closeErr := e }).isSome = true) ∧
    (∀ e : Option String,
        getPkgPath { typ := some GoType.unnamedNonPtr, closeErr := e } = some ("", "")) ∧
    (∀ (t : GoType) (e : Option String),
        getPkgPath { typ := some (GoType.ptrTo t), closeErr := e } =
          some (typeName t, typePkgPath t)) ∧
    (∀ (n p : String) (e : Option String),
        getPkgPath { typ := some (GoType.named n p), closeErr := e } = some (n, p)) := by
  refine ⟨?_, fun e => rfl, fun t e => rfl, fun n p e => rfl⟩
  intro t e
  cases t <;> simp [getPkgPath, typeIsPtr, typeElem, typeName, typePkgPath]

/-- Claim C10: the fan-in channel is created with capacity equal to the batch
size, each close goroutine performs exactly one send on it, and therefore in
any channel trace with at most that many sends, every send finds the buffer
strictly below capacity — so a completion send succeeds without blocking even
after the coordinator has returned and stopped receiving. -/
theorem C10_done_sends_never_block :
    (∀ closable : List GoCloser, doneCap closable = closable.length) ∧
    (∀ c : closer, ((closeObjects c).2).length = 1) ∧
    (∀ (closable : List GoCloser) (p q : List Bool),
        sends (p ++ true :: q) ≤ doneCap closable →
        chanBuf p < (doneCap closable : Int)) := by
  refine ⟨fun _ => rfl, fun c => rfl, ?_⟩
  intro closable p q h
  have hsplit : sends (p ++ true :: q) = sends p + 1 + sends q := by
    simp [sends, List.count_append, List.count_cons]
    omega
  rw [hsplit] at h
  have hrec : chanBuf p ≤ (sends p : Int) := by
    simp [chanBuf]
  omega

/-- Witness for C10: in a one-resource batch, the very first send finds an
empty buffer below the capacity. -/
theorem C10_done_sends_never_block_witness :
    chanBuf [] < (doneCap [ra] : Int) :=
  C10_done_sends_never_block.2.2 [ra] [] [] (by decide)

/-- Claim C1 counterexample: two timed-out batches whose never-confirmed
resources differ (type `A` from `pa` versus type `B` from `pb`) return the
very same failure value, the constant error "failed to close all objects" —
so the returned failure cannot identify which resources never confirmed
release; only the log output does. -/
theorem C1_error_counterexample :
    (closeInMass [ra] [Event.timerFired]).map (fun r => r.2) =
      (closeInMass [rb] [Event.timerFired]).map (fun r => r.2) ∧
    (closeInMass [ra] [Event.timerFired]).map (fun r => r.2) =
      some (some (some "failed to close all objects")) ∧
    ra ≠ rb := by
  refine ⟨rfl, rfl, by decide⟩

/-- Claim C1 (amended): if the timer fires while the PendingSet is non-empty,
`closeInMass` returns the constant failure "failed to close all objects" (the
returned value itself does not name the resources), and before returning it
logs, at error severity, exactly one "Failed to close" line per remaining
resource, identifying each by origin/package path and name. -/
theorem C1_timeout_logs_remaining
    (closable : List GoCloser) (tasks comps : List closer) (rest : List Event)
    (hmk : mkClosers 0 closable = some tasks)
    (hrem : deleteAll (sentToCloseInit tasks) comps ≠ []) :
    closeInMass closable (comps.map Event.completion ++ Event.timerFired :: rest) =
      some (tasks.map (fun c => Action.spawnCloseTask c.Index) ++
              Action.startTimer ::
                (debugCountdown (closable.length : Int) comps ++
                  Action.logWarn
                      (toString ((closable.length : Int) - (comps.length : Int)) ++
                        " object(s) remaining but timer expired.") ::
                    (deleteAll (sentToCloseInit tasks) comps).map
                      (fun p => Action.logError
                        ("Failed to close: " ++ p.2.PKGPath ++ "/" ++ p.2.Name))),
            some (some "failed to close all objects")) := by
  simp only [closeInMass, hmk]
  rw [massLoop_consume comps _ _ _ hrem, massLoop_timer]

/-- Witness for C1 at a concrete two-resource batch in which only the first
resource confirmed before the timer fired. -/
theorem C1_timeout_logs_remaining_witness :
    closeInMass [ra, rb] ([wt0].map Event.completion ++ Event.timerFired :: []) =
      some ([wt0, wt1].map (fun c => Action.spawnCloseTask c.Index) ++
              Action.startTimer ::
                (debugCountdown (([ra, rb] : List GoCloser).length : Int) [wt0] ++
                  Action.logWarn
                      (toString ((([ra, rb] : List GoCloser).length : Int) -
                          (([wt0] : List closer).length : Int)) ++
                        " object(s) remaining but timer expired.") ::
                    (deleteAll (sentToCloseInit [wt0, wt1]) [wt0]).map
                      (fun p => Action.logError
                        ("Failed to close: " ++ p.2.PKGPath ++ "/" ++ p.2.Name))),
            some (some "failed to close all objects")) :=
  C1_timeout_logs_remaining [ra, rb] [wt0, wt1] [wt0] [] rfl (by decide)

/-- Claim C2: in the select loop, a received completion removes its ordinal
index from the pending map and decrements the remaining count — the loop
continues from exactly that shrunken state — and as soon as the count reaches
zero the loop returns nil at once, with a result independent of the events
(in particular the pending timer) that follow. -/
theorem C2_completion_step :
    (∀ (sent : List (Nat × closer)) (count : Int) (c : closer) (rest : List Event),
        mapDelete sent c.Index ≠ [] →
        massLoop sent count (Event.completion c :: rest) =
          (Action.logDebug (toString (count - 1) ++ " object(s) left") ::
             (massLoop (mapDelete sent c.Index) (count - 1) rest).1,
           (massLoop (mapDelete sent c.Index) (count - 1) rest).2)) ∧
    (∀ (sent : List (Nat × closer)) (c : closer),
        c.Index ∉ keys (mapDelete sent c.Index)) ∧
    (∀ (sent : List (Nat × closer)) (c : closer), (keys sent).Nodup →
        c.Index ∈ keys sent → (mapDelete sent c.Index).length + 1 = sent.length) ∧
    (∀ (sent : List (Nat × closer)) (count : Int) (c : closer) (rest : List Event),
        (keys sent).Nodup → c.Index ∈ keys sent → count = sent.length →
        count - 1 = 0 →
        massLoop sent count (Event.completion c :: rest) =
          ([Action.logDebug (toString (count - 1) ++ " object(s) left"),
            Action.logDebug "Finished closing objects"], some none)) := by
  refine ⟨?_, ?_, fun sent c hnd hmem => length_mapDelete hnd hmem, ?_⟩
  · intro sent count c rest hne
    rw [massLoop_completion, if_neg (fun hc => hne hc.2)]
  · intro sent c hmem
    exact (mem_keys_mapDelete.mp hmem).2 rfl
  · intro sent count c rest hnd hmem hcount hz
    have hlen := length_mapDelete hnd hmem
    have hnil : mapDelete sent c.Index = [] := by
      apply List.length_eq_zero.mp
      omega
    rw [massLoop_completion, if_pos ⟨hz, hnil⟩]

/-- Witness for C2: one pending resource; its completion returns nil
immediately even though a timer event is queued behind it. -/
theorem C2_completion_step_witness :
    massLoop [(0, wt0)] 1 (Event.completion wt0 :: [Event.timerFired]) =
      ([Action.logDebug (toString ((1 : Int) - 1) ++ " object(s) left"),
        Action.logDebug "Finished closing objects"], some none) :=
  C2_completion_step.2.2.2 [(0, wt0)] 1 wt0 [Event.timerFired] (by decide) (by decide)
    (by decide) (by decide)

/-- Claim C3: an error returned by an individual Close call is logged by its
goroutine but never fails the coordinator: the goroutine still publishes its
completion, a batch whose completions all arrive before the timer (in any
order, whatever the Close errors were) returns nil, and a non-nil error is
returned only when the timer fired. -/
theorem C3_close_errors_absorbed :
    (∀ c : closer, (closeObjects c).2 = [c]) ∧
    (∀ (c : closer) (e : String), c.C.closeErr = some e →
        (closeObjects c).1 = [Action.logError e]) ∧
    (∀ (closable : List GoCloser) (tasks comps : List closer) (rest : List Event),
        closable ≠ [] → mkClosers 0 closable = some tasks → List.Perm comps tasks →
        closeInMass closable (comps.map Event.completion ++ rest) =
          some (tasks.map (fun c => Action.spawnCloseTask c.Index) ++
                  Action.startTimer ::
                    (debugCountdown (closable.length : Int) comps ++
                      [Action.logDebug "Finished closing objects"]),
                some none)) ∧
    (∀ (closable : List GoCloser) (evs : List Event) (acts : List Action) (e : String),
        closeInMass closable evs = some (acts, some (some e)) → Event.timerFired ∈ evs) := by
  refine ⟨fun c => rfl, ?_, ?_, ?_⟩
  · intro c e he
    simp [closeObjects, he]
  · intro closable tasks comps rest hne hmk hperm
    have htne : tasks ≠ [] := by
      intro h0
      have hl := mkClosers_length hmk
      rw [h0] at hl
      exact hne (List.length_eq_zero.mp hl.symm)
    have hsne : sentToCloseInit tasks ≠ [] := by
      intro h0
      have hl := congrArg List.length h0
      rw [length_sentToCloseInit] at hl
      exact htne (List.length_eq_zero.mp (by simpa using hl))
    have hcnt : ((closable.length : Nat) : Int) = ((sentToCloseInit tasks).length : Int) := by
      rw [length_sentToCloseInit, mkClosers_length hmk]
    have hnd : (keys (sentToCloseInit tasks)).Nodup := by
      rw [keys_sentToCloseInit, mkClosers_indices _ _ _ hmk]
      rw [← List.range_eq_range']
      exact List.nodup_range _
    have hpermK : List.Perm (comps.map closer.Index) (keys (sentToCloseInit tasks)) := by
      rw [keys_sentToCloseInit]
      exact hperm.map closer.Index
    simp only [closeInMass, hmk]
    rw [massLoop_success comps _ _ rest hsne hnd hcnt hpermK]
  · intro closable evs acts e h
    cases hmk : mkClosers 0 closable with
    | none =>
        simp only [closeInMass, hmk] at h
        exact Option.noConfusion h
    | some tasks =>
        simp only [closeInMass, hmk, Option.some.injEq, Prod.mk.injEq] at h
        exact massLoop_error_mem evs _ _ e h.2

/-- Witness for C3: a two-resource batch in which the first resource's Close
reports an internal error and the completions arrive in reverse order still
makes `closeInMass` return nil. -/
theorem C3_close_errors_absorbed_witness :
    closeInMass [rc, rb] ([wt1, wtc].map Event.completion ++ []) =
      some ([wtc, wt1].map (fun c => Action.spawnCloseTask c.Index) ++
              Action.startTimer ::
                (debugCountdown (([rc, rb] : List GoCloser).length : Int) [wt1, wtc] ++
                  [Action.logDebug "Finished closing objects"]),
            some none) :=
  C3_close_errors_absorbed.2.2.1 [rc, rb] [wtc, wt1] [wt1, wtc] [] (by decide) rfl
    (by decide)

/-- Claim C7: the PendingSet shrinks monotonically: the initial population has
exactly one entry per resource, keyed by the ordinal indices 0..N-1; a
deletion only ever removes entries (the map after a delete, and after any run
of deletes, is a sublist of the map before); and after any sequence of
distinct in-range completions the remaining count N - k equals the number of
entries left in the map. -/
theorem C7_pending_monotone :
    (∀ (closable : List GoCloser) (tasks : List closer),
        mkClosers 0 closable = some tasks →
        keys (sentToCloseInit tasks) = List.range closable.length ∧
        (sentToCloseInit tasks).length = closable.length) ∧
    (∀ (sent : List (Nat × closer)) (k : Nat), List.Sublist (mapDelete sent k) sent) ∧
    (∀ (sent : List (Nat × closer)) (comps : List closer),
        List.Sublist (deleteAll sent comps) sent) ∧
    (∀ (sent : List (Nat × closer)) (comps : List closer),
        (keys sent).Nodup → (comps.map closer.Index).Nodup →
        (∀ c ∈ comps, c.Index ∈ keys sent) →
        ((deleteAll sent comps).length : Int) =
          (sent.length : Int) - (comps.length : Int)) := by
  refine ⟨?_, mapDelete_sublist, fun sent comps => deleteAll_sublist comps sent,
    fun sent comps hnd hcnd hmem => deleteAll_length comps sent hnd hcnd hmem⟩
  intro closable tasks hmk
  constructor
  · rw [keys_sentToCloseInit, mkClosers_indices _ _ _ hmk, ← List.range_eq_range']
  · rw [length_sentToCloseInit, mkClosers_length hmk]

/-- Witness for C7: deleting the single completed entry leaves a map whose
size matches the decremented count. -/
theorem C7_pending_monotone_witness :
    ((deleteAll [(0, wt0)] [wt0]).length : Int) =
      (([(0, wt0)] : List (Nat × closer)).length : Int) -
        (([wt0] : List closer).length : Int) :=
  C7_pending_monotone.2.2.2 [(0, wt0)] [wt0] (by decide) (by decide) (by decide)

/-- Claim C9: duplicate resources in the input are treated independently:
wrapping assigns the ordinal indices 0..N-1 positionally, keeps the resource
of each position (so equal resources at different positions yield distinct
wrappers with distinct indices), and every successful `closeInMass` trace
contains one spawned close goroutine per position. -/
theorem C9_duplicates_independent :
    ∀ (closable : List GoCloser) (tasks : List closer),
      mkClosers 0 closable = some tasks →
      tasks.map closer.Index = List.range closable.length ∧
      tasks.map closer.C = closable ∧
      (tasks.map closer.Index).Nodup ∧
      (∀ (i j : Nat) (hi : i < tasks.length) (hj : j < tasks.length),
          i ≠ j → tasks.get ⟨i, hi⟩ ≠ tasks.get ⟨j, hj⟩) ∧
      (∀ (events : List Event) (acts : List Action) (res : Option (Option String)),
          closeInMass closable events = some (acts, res) →
          ∀ i, i < closable.length → Action.spawnCloseTask i ∈ acts) := by
  intro closable tasks hmk
  have hidx : tasks.map closer.Index = List.range closable.length := by
    rw [mkClosers_indices _ _ _ hmk, ← List.range_eq_range']
  have hnd : (tasks.map closer.Index).Nodup := by
    rw [hidx]
    exact List.nodup_range _
  have hndt : tasks.Nodup := hnd.of_map
  refine ⟨hidx, mkClosers_resources _ _ _ hmk, hnd, ?_, ?_⟩
  · intro i j hi hj hij hcontra
    exact hij (congrArg Fin.val (hndt.get_inj_iff.mp hcontra))
  · intro events acts res h i hi
    simp only [closeInMass, hmk, Option.some.injEq, Prod.mk.injEq] at h
    rw [← h.1]
    apply List.mem_append_left
    have hmem : Action.spawnCloseTask i ∈
        (tasks.map closer.Index).map Action.spawnCloseTask := by
      rw [hidx]
      exact List.mem_map_of_mem _ (List.mem_range.mpr hi)
    simpa [List.map_map, Function.comp] using hmem

/-- Witness for C9: a batch holding the same resource twice yields two
independent wrappers preserving both positions. -/
theorem C9_duplicates_independent_witness :
    [wt0, wt2].map closer.C = [ra, ra] :=
  (C9_duplicates_independent [ra, ra] [wt0, wt2] rfl).2.1

end death
